import Mathlib

set_option maxHeartbeats 1000000
set_option maxRecDepth 100000

namespace Omnia

/-!
Shallow embedding of the parts of the `futureforging/omnia` repository that
the claims under scrutiny are about:

* `crates/wasi-http/src/guest/cache.rs` — outbound HTTP cache: `Cache-Control`
  parsing (`Control::try_from`), `Cache::get` / `Cache::put`, and the
  serialized record form (`Serialized`, `serialize`, `deserialize`).
* `crates/wasi-http/src/host/server.rs` — inbound HTTP server:
  `fix_request` and the `internal_error` fallback in `serve`.
* `crates/wasi-http/src/host/default_impl.rs` — outbound sender:
  `FORBIDDEN_HEADERS` scrubbing and `Host` header dedupe.
* `crates/warp-sdk/src/error.rs` and `crates/warp-sdk/src/api/into_http.rs` —
  the typed error model and its HTTP projection.
* `crates/wasi-messaging/src/host/types_impl.rs` together with
  `crates/wasi-messaging/src/host/default_impl.rs` — immutable message
  mutation through the resource table.

Rust strings are modelled as `List Char` (`Str`), with executable ASCII
versions of the string operations the code uses (`trim`, `split`,
`to_ascii_lowercase`, `strip_prefix`, integer parsing); header values are
modelled at the byte level (`List Nat`) where a claim depends on non-ASCII
bytes.
-/

/-- Rust strings, modelled as character lists so that every operation reduces
in the kernel. -/
abbrev Str := List Char

/-- Shorthand to write `Str` literals. -/
def str (s : String) : Str := s.data

instance {ε α : Type} [DecidableEq ε] [DecidableEq α] : DecidableEq (Except ε α)
  | .error a, .error b =>
    if h : a = b then .isTrue (by rw [h]) else .isFalse (fun hh => h (by cases hh; rfl))
  | .error _, .ok _ => .isFalse (fun hh => Except.noConfusion hh)
  | .ok _, .error _ => .isFalse (fun hh => Except.noConfusion hh)
  | .ok a, .ok b =>
    if h : a = b then .isTrue (by rw [h]) else .isFalse (fun hh => h (by cases hh; rfl))

/-- ASCII whitespace, as removed by Rust's `str::trim` on the inputs in
question (Rust trims all Unicode whitespace; the code only ever meets ASCII
here). -/
def isWhite (c : Char) : Bool :=
  c = ' ' || c = '\t' || c = '\n' || c = '\r'

/-- Rust `str::trim`. -/
def trimStr (s : Str) : Str :=
  ((s.dropWhile isWhite).reverse.dropWhile isWhite).reverse

/-- Rust `char::to_ascii_lowercase`. -/
def asciiLower (c : Char) : Char :=
  if 'A' ≤ c && c ≤ 'Z' then Char.ofNat (c.toNat + 32) else c

/-- Rust `str::to_ascii_lowercase`. -/
def lowerStr (s : Str) : Str := s.map asciiLower

/-- Rust `str::split(sep)`: split on every occurrence of `sep`, keeping empty
pieces (an empty input yields one empty piece). -/
def splitOnChar (sep : Char) : Str → List Str
  | [] => [[]]
  | c :: cs =>
    if c = sep then [] :: splitOnChar sep cs
    else
      match splitOnChar sep cs with
      | [] => [[c]]
      | t :: rest => (c :: t) :: rest

/-- Rust `str::strip_prefix`. -/
def stripPrefixStr (p s : Str) : Option Str :=
  if p.isPrefixOf s then some (s.drop p.length) else none

/-- Rust `str::parse::<u64>`: an optional leading `+` sign, then at least
one ASCII digit, value below `2 ^ 64` (a `-` fails the digit check, as it
does for Rust's unsigned parse). -/
def parseU64 (s : Str) : Option Nat :=
  let digits :=
    match s with
    | '+' :: rest => rest
    | _ => s
  if digits ≠ [] && digits.all Char.isDigit then
    let n := digits.foldl (fun a c => a * 10 + (c.toNat - 48)) 0
    if n < 2 ^ 64 then some n else none
  else none

/-! ## `Cache-Control` parsing — `Control::try_from` in `guest/cache.rs` -/

/-- The `Control` struct of `guest/cache.rs`: state accumulated while parsing
the `Cache-Control` header, plus the ETag taken from `If-None-Match`. -/
structure Control where
  no_cache : Bool := false
  no_store : Bool := false
  max_age : Nat := 0
  etag : Str := []
deriving Repr, DecidableEq

/-- One iteration of the `for directive in cache_control.to_str()?.split(',')`
loop in `Control::try_from`: trim, ASCII-lowercase, then recognize
`no-store` / `no-cache` / `max-age=`, bailing out on the conflicts the code
checks at that point. -/
def processDirective (c : Control) (raw : Str) : Except Str Control :=
  let d := lowerStr (trimStr raw)
  if d = [] then .ok c
  else if d = str "no-store" then
    if c.no_cache || c.max_age > 0 then
      .error (str "no-store cannot be combined with other cache directives")
    else .ok { c with no_store := true }
  else if d = str "no-cache" then
    if c.no_store then .error (str "no-cache cannot be combined with no-store")
    else .ok { c with no_cache := true }
  else
    match stripPrefixStr (str "max-age=") d with
    | some value =>
      if c.no_store then .error (str "max-age cannot be combined with no-store")
      else
        match parseU64 (trimStr value) with
        | some n => .ok { c with max_age := n }
        | none => .error (str "max-age directive is malformed")
    | none => .ok c

/-- The whole directive loop of `Control::try_from`, starting from
`Control::default()`. -/
def parseDirectives (s : Str) : Except Str Control :=
  (splitOnChar ',' s).foldlM processDirective {}

/-- `Control::try_from(&http::HeaderMap)`: `cacheControl` and `ifNoneMatch`
are the first values of the `Cache-Control` and `If-None-Match` headers
(`HeaderMap::get`), `none` when absent.  After the directive loop the code
requires a usable `If-None-Match` only when *neither* `no-store` *nor*
`no-cache` was set. -/
def controlTryFrom (cacheControl ifNoneMatch : Option Str) :
    Except Str Control :=
  match cacheControl with
  | none => .ok {}
  | some cc =>
    if cc = [] then .error (str "Cache-Control header is empty")
    else
      match parseDirectives cc with
      | .error e => .error e
      | .ok c =>
        if !c.no_store && !c.no_cache then
          match ifNoneMatch with
          | none => .error (str "If-None-Match header required")
          | some etag =>
            if etag = [] then .error (str "If-None-Match header is empty")
            else if etag.contains ',' then
              .error (str "multiple etag values in If-None-Match header not supported")
            else if (str "W/").isPrefixOf etag then
              .error (str "weak etag values in If-None-Match header not supported")
            else .ok { c with etag := etag }
        else .ok c

/-- Classification of one raw `Cache-Control` token after trim + lowercase,
mirroring the branch structure of the directive loop.  An empty token is
skipped by the loop, so it classifies as `other`. -/
inductive DirKind
  | noStore
  | noCache
  | maxAge (n : Nat)
  | badMaxAge
  | other
deriving Repr, DecidableEq

/-- Which branch of the directive loop a raw token selects. -/
def classify (raw : Str) : DirKind :=
  let d := lowerStr (trimStr raw)
  if d = [] then .other
  else if d = str "no-store" then .noStore
  else if d = str "no-cache" then .noCache
  else
    match stripPrefixStr (str "max-age=") d with
    | some value =>
      match parseU64 (trimStr value) with
      | some n => .maxAge n
      | none => .badMaxAge
    | none => .other

/-- The state update a token performs when the loop does not bail on it. -/
def updateTok (c : Control) (raw : Str) : Control :=
  match classify raw with
  | .noStore => { c with no_store := true }
  | .noCache => { c with no_cache := true }
  | .maxAge n => { c with max_age := n }
  | _ => c

/-- Whether the loop bails on token `raw` when its accumulated state is `c`. -/
def conflictTok (c : Control) (raw : Str) : Bool :=
  match classify raw with
  | .noStore => c.no_cache || decide (c.max_age > 0)
  | .noCache => c.no_store
  | .maxAge _ => c.no_store
  | .badMaxAge => true
  | .other => false

/-- `no-store` appears among the tokens. -/
def seenNoStore (ts : List Str) : Bool :=
  ts.any fun t => classify t == .noStore

/-- `no-cache` appears among the tokens. -/
def seenNoCache (ts : List Str) : Bool :=
  ts.any fun t => classify t == .noCache

/-- Value of the last well-formed `max-age` directive among the tokens,
starting from `m`. -/
def lastMaxAgeFrom (m : Nat) (ts : List Str) : Nat :=
  ts.foldl
    (fun a t =>
      match classify t with
      | .maxAge n => n
      | _ => a)
    m

/-- Value of the last well-formed `max-age` directive among the tokens
(`0` when there is none). -/
def lastMaxAge (ts : List Str) : Nat :=
  lastMaxAgeFrom 0 ts

/-- Declarative reading of a bail-out at position `k` of the token list:
`no-store` conflicts when `no-cache` appeared earlier or the last `max-age`
seen so far is positive; `no-cache` and any `max-age` directive conflict when
`no-store` appeared earlier; a malformed `max-age` always errors. -/
def rejectsAt (ts : List Str) (k : Nat) (h : k < ts.length) : Prop :=
  match classify (ts.get ⟨k, h⟩) with
  | .noStore => seenNoCache (ts.take k) = true ∨ 0 < lastMaxAge (ts.take k)
  | .noCache => seenNoStore (ts.take k) = true
  | .maxAge _ => seenNoStore (ts.take k) = true
  | .badMaxAge => True
  | .other => False

/-! ## Serialized cache records — `Serialized`, `serialize`, `deserialize`
in `guest/cache.rs`, with header values at the byte level -/

/-- Raw bytes (each entry below 256 on every value the code produces). -/
abbrev Bytes := List Nat

/-- `http::HeaderValue::to_str` accepts exactly visible ASCII plus tab. -/
def isVisibleAsciiByte (b : Nat) : Bool :=
  (32 ≤ b && b < 127) || b = 9

/-- Bytes `http::HeaderValue::from_str` accepts: anything except control
characters other than tab (DEL excluded), including the `obs-text` range. -/
def isValidHeaderValueByte (b : Nat) : Bool :=
  (32 ≤ b && b ≠ 127 && b < 256) || b = 9

/-- Characters `http::HeaderName` accepts (HTTP token characters). -/
def isHeaderNameChar (c : Char) : Bool :=
  c.isAlpha || c.isDigit ||
    ([33, 35, 36, 37, 38, 39, 42, 43, 45, 46, 94, 95, 96, 124, 126].contains c.toNat)

/-- `http::HeaderValue::to_str`: succeeds exactly on visible-ASCII (plus tab)
byte strings, yielding the chars byte for byte. -/
def headerValueToStr (v : Bytes) : Option Str :=
  if v.all isVisibleAsciiByte then some (v.map Char.ofNat) else none

/-- UTF-8 encoding of one char (standard 1–4 byte form). -/
def utf8EncodeChar (c : Char) : Bytes :=
  let n := c.toNat
  if n < 128 then [n]
  else if n < 2048 then [192 + n / 64, 128 + n % 64]
  else if n < 65536 then [224 + n / 4096, 128 + n / 64 % 64, 128 + n % 64]
  else [240 + n / 262144, 128 + n / 4096 % 64, 128 + n / 64 % 64, 128 + n % 64]

/-- UTF-8 encoding of a string (Rust `str::as_bytes`). -/
def utf8EncodeStr (s : Str) : Bytes :=
  (s.map utf8EncodeChar).flatten

/-- Whether `b` is a UTF-8 continuation byte. -/
def isCont (b : Nat) : Bool := 128 ≤ b && b < 192

/-- Strict UTF-8 decoder (rejects overlong forms, surrogates, and values
above `0x10FFFF`), used to state the claim's own notion of "valid UTF-8". -/
def utf8Decode : Bytes → Option Str
  | [] => some []
  | b :: rest =>
    if b < 128 then (utf8Decode rest).map (fun s => Char.ofNat b :: s)
    else if 194 ≤ b && b ≤ 223 then
      match rest with
      | b1 :: rest1 =>
        if isCont b1 then
          (utf8Decode rest1).map (fun s => Char.ofNat ((b - 192) * 64 + (b1 - 128)) :: s)
        else none
      | [] => none
    else if 224 ≤ b && b ≤ 239 then
      match rest with
      | b1 :: b2 :: rest2 =>
        if isCont b1 && isCont b2 &&
            (b ≠ 224 || 160 ≤ b1) && (b ≠ 237 || b1 < 160) then
          (utf8Decode rest2).map
            (fun s => Char.ofNat ((b - 224) * 4096 + (b1 - 128) * 64 + (b2 - 128)) :: s)
        else none
      | _ => none
    else if 240 ≤ b && b ≤ 244 then
      match rest with
      | b1 :: b2 :: b3 :: rest3 =>
        if isCont b1 && isCont b2 && isCont b3 &&
            (b ≠ 240 || 144 ≤ b1) && (b ≠ 244 || b1 < 144) then
          (utf8Decode rest3).map
            (fun s =>
              Char.ofNat
                ((b - 240) * 262144 + (b1 - 128) * 4096 + (b2 - 128) * 64 + (b3 - 128)) :: s)
        else none
      | _ => none
    else none

/-- The claim's notion of a byte string being valid UTF-8. -/
def validUtf8 (v : Bytes) : Bool :=
  (utf8Decode v).isSome

/-- The model of the `http` response the cache code works with:
`http::Response<Bytes>` restricted to what `Serialized` touches. -/
structure HttpResponse where
  status : Nat
  headers : List (Str × Bytes)
  body : Bytes
deriving Repr, DecidableEq

/-- The `Serialized` struct of `guest/cache.rs`: a flat
`(status, headers, body)` record with stringly header values. -/
structure Serialized where
  status : Nat
  headers : List (Str × Str)
  body : Bytes
deriving Repr, DecidableEq

/-- `Serialized::try_from(&Response<Bytes>)`: status as `u16`, header values
through `to_str().unwrap_or_default()` — a value `to_str` rejects becomes the
empty string — and the body verbatim. -/
def serializedOfResponse (r : HttpResponse) : Serialized :=
  { status := r.status
    headers := r.headers.map fun kv => (kv.1, (headerValueToStr kv.2).getD [])
    body := r.body }

/-- Concrete executable stand-in for the `rkyv` wire format (an external
library the cache code uses only as a self-inverse encoding): a
prefix-free unary length code.  Any byte string that is not a valid encoding
fails to decode, which is all `deserialize` relies on. -/
def encodeNat (n : Nat) : Bytes :=
  List.replicate n 1 ++ [0]

/-- Decoder for `encodeNat`, returning the remaining bytes. -/
def decodeNat : Bytes → Option (Nat × Bytes)
  | [] => none
  | 0 :: rest => some (0, rest)
  | 1 :: rest =>
    match decodeNat rest with
    | some (n, r) => some (n + 1, r)
    | none => none
  | _ => none

/-- Length-prefixed encoding of a string (chars as code points). -/
def encodeStr (s : Str) : Bytes :=
  encodeNat s.length ++ s.map Char.toNat

/-- Decoder for `encodeStr`. -/
def decodeStr (b : Bytes) : Option (Str × Bytes) :=
  match decodeNat b with
  | some (n, r) =>
    if n ≤ r.length then some ((r.take n).map Char.ofNat, r.drop n) else none
  | none => none

/-- Encoding of one `(name, value)` header pair. -/
def encodePair (kv : Str × Str) : Bytes :=
  encodeStr kv.1 ++ encodeStr kv.2

/-- Decoder for a counted sequence of header pairs. -/
def decodePairs : Nat → Bytes → Option (List (Str × Str) × Bytes)
  | 0, b => some ([], b)
  | n + 1, b =>
    match decodeStr b with
    | some (k, r1) =>
      match decodeStr r1 with
      | some (v, r2) =>
        match decodePairs n r2 with
        | some (l, r3) => some ((k, v) :: l, r3)
        | none => none
      | none => none
    | none => none

/-- `rkyv::to_bytes` stand-in on the flat record. -/
def encodeSerialized (s : Serialized) : Bytes :=
  encodeNat s.status ++ encodeNat s.headers.length ++
    (s.headers.map encodePair).flatten ++ encodeNat s.body.length ++ s.body

/-- `rkyv::from_bytes` stand-in: decodes the flat record, requiring the
`u16` status bound and full consumption of the input. -/
def decodeSerialized (b : Bytes) : Option Serialized :=
  match decodeNat b with
  | some (st, r1) =>
    if st < 65536 then
      match decodeNat r1 with
      | some (hn, r2) =>
        match decodePairs hn r2 with
        | some (hs, r3) =>
          match decodeNat r3 with
          | some (bn, r4) => if r4.length = bn then some ⟨st, hs, r4⟩ else none
          | none => none
        | none => none
      | none => none
    else none
  | none => none

/-- `http::HeaderName::try_from(&str)`: token characters only, result
normalized to lowercase. -/
def headerNameOfStr (s : Str) : Option Str :=
  if s ≠ [] && s.all isHeaderNameChar then some (lowerStr s) else none

/-- `validHeaderName` captures the names `HeaderName::to_string` can
produce: non-empty, token characters, already lowercase. -/
def validHeaderName (s : Str) : Bool :=
  s ≠ [] && s.all isHeaderNameChar && lowerStr s = s

/-- `http::HeaderValue::from_str`: the string's UTF-8 bytes, accepted iff
every byte is a legal header value byte. -/
def headerValueOfStr (s : Str) : Option Bytes :=
  let bs := utf8EncodeStr s
  if bs.all isValidHeaderValueByte then some bs else none

/-- The header loop of `TryFrom<Serialized> for Response<Bytes>`:
`response.header(k, v)` for each pair in order, failing if any name or value
is rejected by the builder. -/
def buildHeaders : List (Str × Str) → Option (List (Str × Bytes))
  | [] => some []
  | (k, v) :: rest =>
    match headerNameOfStr k, headerValueOfStr v, buildHeaders rest with
    | some k', some v', some tl => some ((k', v') :: tl)
    | _, _, _ => none

/-- `Response::builder().status(s.status)`: `http::StatusCode` accepts
exactly `100..=999`. -/
def statusOfNat (st : Nat) : Option Nat :=
  if 100 ≤ st && st < 1000 then some st else none

/-- `TryFrom<Serialized> for Response<Bytes>`. -/
def responseOfSerialized (s : Serialized) : Option HttpResponse :=
  match statusOfNat s.status, buildHeaders s.headers with
  | some st, some hs => some ⟨st, hs, s.body⟩
  | _, _ => none

/-- `serialize` in `guest/cache.rs` (its `rkyv` step modelled by
`encodeSerialized`). -/
def serializeResponse (r : HttpResponse) : Bytes :=
  encodeSerialized (serializedOfResponse r)

/-- `deserialize` in `guest/cache.rs`: `rkyv::from_bytes` then
`Response::try_from`; both failure modes collapse to `none` (the code turns
each into an `anyhow` error). -/
def deserializeResponse (b : Bytes) : Option HttpResponse :=
  match decodeSerialized b with
  | some s => responseOfSerialized s
  | none => none

/-- The transformation the claim asserts serialization performs on one header
value: values that are not valid UTF-8 become empty, all others survive. -/
def claimHeaderLoss (v : Bytes) : Bytes :=
  if validUtf8 v then v else []

/-- The transformation the code actually performs on one header value:
values that are not wholly visible ASCII (plus tab) become empty. -/
def codeHeaderLoss (v : Bytes) : Bytes :=
  if v.all isVisibleAsciiByte then v else []

/-! ## `Cache::get` — `guest/cache.rs` -/

/-- `Cache::get`, with the key-value bucket abstracted as a lookup function
(`store`) for the successfully-opened bucket: a missing key is a miss, and a
present record that fails to decode is an *error*
(`deserialize(&data).map(Some)` propagates the failure through `?`). -/
def cacheGet (ctrl : Control) (store : Str → Option Bytes) :
    Except Str (Option HttpResponse) :=
  if ctrl.no_cache || ctrl.no_store || ctrl.etag.isEmpty then .ok none
  else
    match store ctrl.etag with
    | none => .ok none
    | some data =>
      match deserializeResponse data with
      | some r => .ok (some r)
      | none => .error (str "deserializing cached response")

/-- `Cache::put`: stores the serialized response under the ETag unless
`no-store` is set, the ETag is empty, or `max_age` is zero. -/
def cachePut (ctrl : Control) (store : Str → Option Bytes) (r : HttpResponse) :
    Str → Option Bytes :=
  if ctrl.no_store || ctrl.etag.isEmpty || ctrl.max_age = 0 then store
  else fun k => if k = ctrl.etag then some (serializeResponse r) else store k

/-! ## Inbound server — `fix_request`, `internal_error`, and the `serve`
fallback in `host/server.rs` -/

/-- `HeaderMap::get`: first value under the (lowercase) name. -/
def headersGet (hs : List (Str × Str)) (name : Str) : Option Str :=
  (hs.find? fun kv => kv.1 = name).map fun kv => kv.2

/-- An inbound `hyper::Request`, restricted to what `fix_request` reads. -/
structure InboundRequest where
  headers : List (Str × Str)
  path_and_query : Option Str
deriving Repr, DecidableEq

/-- The parts `fix_request` assembles into the rewritten `http::Uri`. -/
structure UriParts where
  scheme : Option Str
  authority : Option Str
  path_and_query : Str
deriving Repr, DecidableEq

/-- `http::Uri::from_parts` as invoked by `uri_builder.build()`: a scheme
requires an authority, and an authority with a path-and-query (always present
here) requires a scheme. -/
def buildUri (scheme authority : Option Str) (pq : Str) : Except Str UriParts :=
  match scheme, authority with
  | some s, some a => .ok ⟨some s, some a, pq⟩
  | some _, none => .error (str "scheme requires authority")
  | none, some _ => .error (str "authority requires scheme")
  | none, none => .ok ⟨none, none, pq⟩

/-- One `Forwarded` tuple processed by the loop in `fix_request`: trim, then
`host=…` updates the authority, otherwise `proto=…` updates the scheme.  The
accumulator is `(authority, scheme)`. -/
def forwardedFoldStep (sa : Option Str × Option Str) (tuple : Str) :
    Option Str × Option Str :=
  let t := trimStr tuple
  match stripPrefixStr (str "host=") t with
  | some host => (some host, sa.2)
  | none =>
    match stripPrefixStr (str "proto=") t with
    | some proto => (sa.1, some proto)
    | none => sa

/-- The whole `Forwarded` loop: split on `;` and fold, starting from an
unset builder. -/
def parseForwarded (fwd : Str) : Option Str × Option Str :=
  (splitOnChar ';' fwd).foldl forwardedFoldStep (none, none)

/-- `fix_request` in `host/server.rs`.  (Authority and scheme strings are
modelled as accepted verbatim by the builder; their character-level
validation is orthogonal to the claims.) -/
def fixRequest (req : InboundRequest) : Except Str UriParts :=
  let pq := req.path_and_query.getD (str "/")
  match headersGet req.headers (str "forwarded") with
  | some fwd =>
    let hp := parseForwarded fwd
    buildUri hp.2 hp.1 pq
  | none =>
    match headersGet req.headers (str "host") with
    | none => .error (str "missing host header")
    | some host => buildUri (some (str "http")) (some host) pq

/-- The slice of a host response the claims inspect. -/
structure HostResponse where
  status : Nat
  contentType : Option Str
deriving Repr, DecidableEq

/-- `internal_error()` in `host/server.rs`: the fixed 500 HTML page. -/
def internalError : HostResponse :=
  ⟨500, some (str "text/html; charset=UTF-8")⟩

/-- The request dispatch inside `serve`:
`handler.handle(request).await.unwrap_or_else(|_e| internal_error())`, with
the guest call abstracted as a function of the rewritten URI. -/
def serveRespond (req : InboundRequest) (guest : UriParts → HostResponse) :
    HostResponse :=
  match fixRequest req with
  | .ok u => guest u
  | .error _ => internalError

/-- Last `host=` item of a `Forwarded` tuple, mirroring the loop's match
precedence. -/
def fwdHostItem (t : Str) : Option Str :=
  stripPrefixStr (str "host=") (trimStr t)

/-- Last `proto=` item of a `Forwarded` tuple (never tested when `host=`
matched, mirroring the loop). -/
def fwdProtoItem (t : Str) : Option Str :=
  match stripPrefixStr (str "host=") (trimStr t) with
  | some _ => none
  | none => stripPrefixStr (str "proto=") (trimStr t)

/-- Last element of a list, or a default: the value an overwrite-style fold
leaves behind. -/
def lastOr {α : Type} : List α → Option α → Option α
  | [], d => d
  | x :: l, _ => lastOr l (some x)

/-! ## Outbound sender — `FORBIDDEN_HEADERS` and `Host` dedupe in
`host/default_impl.rs` -/

/-- The `FORBIDDEN_HEADERS` constant (header names are lowercase). -/
def forbiddenHeaders : List Str :=
  [str "connection", str "host", str "proxy-authenticate",
   str "proxy-authorization", str "transfer-encoding", str "upgrade",
   str "keep-alive", str "proxy-connection", str "http2-settings"]

/-- `HeaderMap::remove`: drop every value stored under the name. -/
def removeHeader (hs : List (Str × Str)) (name : Str) : List (Str × Str) :=
  hs.filter fun kv => !(kv.1 == name)

/-- The response scrub loop in `send_request`:
`for header in &FORBIDDEN_HEADERS { headers.remove(header); }`. -/
def stripForbidden (hs : List (Str × Str)) : List (Str × Str) :=
  forbiddenHeaders.foldl removeHeader hs

/-- The values stored under `Host`, in order. -/
def hostValues (hs : List (Str × Str)) : List Str :=
  (hs.filter fun kv => kv.1 == str "host").map fun kv => kv.2

/-- The `Host` dedupe block in `send_request`: collect all `Host` values;
when more than one, remove the name and re-append every value *except the
first* (`values.into_iter().skip(1)`). -/
def dedupeHostHeaders (hs : List (Str × Str)) : List (Str × Str) :=
  let values := hostValues hs
  if values.length > 1 then
    (hs.filter fun kv => !(kv.1 == str "host")) ++
      (values.drop 1).map fun v => (str "host", v)
  else hs

/-! ## Typed errors — `warp-sdk/src/error.rs` and `api/into_http.rs` -/

/-- The `Error` enum of `warp-sdk/src/error.rs`. -/
inductive Error where
  | badRequest (code description : Str)
  | notFound (code description : Str)
  | serverError (code description : Str)
  | badGateway (code description : Str)
deriving Repr, DecidableEq

/-- `Error::status`. -/
def Error.status : Error → Nat
  | .badRequest .. => 400
  | .notFound .. => 404
  | .serverError .. => 500
  | .badGateway .. => 502

/-- `Error::code`. -/
def Error.code : Error → Str
  | .badRequest c _ | .notFound c _ | .serverError c _ | .badGateway c _ => c

/-- `Error::description`. -/
def Error.description : Error → Str
  | .badRequest _ d | .notFound _ d | .serverError _ d | .badGateway _ d => d

/-- Discriminant of the variant, to state variant preservation. -/
def Error.tagOf : Error → Nat
  | .badRequest .. => 0
  | .notFound .. => 1
  | .serverError .. => 2
  | .badGateway .. => 3

/-- The `thiserror` display form shared by all variants:
`code: {code}, description: {description}` (braces denote interpolation in
the Rust attribute). -/
def Error.display (e : Error) : Str :=
  str "code: " ++ e.code ++ str ", description: " ++ e.description

/-- The `HttpError` struct of `api/into_http.rs`. -/
structure HttpError where
  status : Nat
  error : Str
deriving Repr, DecidableEq

/-- `From<crate::Error> for HttpError`. -/
def HttpError.ofError (e : Error) : HttpError :=
  ⟨e.status, e.display⟩

/-- `IntoResponse for HttpError`: `(self.status, self.error)` becomes the
response's status and body. -/
def HttpError.intoResponse (h : HttpError) : Nat × Str :=
  (h.status, h.error)

/-- An `anyhow::Error` as the code observes it: a one-off message, a typed
`Error` put into `anyhow`, or a context layer wrapping an inner error. -/
inductive AnyhowError where
  | message (msg : Str)
  | typed (e : Error)
  | context (msg : Str) (inner : AnyhowError)
deriving Repr, DecidableEq

/-- `err.chain().map(ToString::to_string)`: display of each layer, outermost
first; the innermost layer displays a typed `Error` through its `thiserror`
format. -/
def AnyhowError.chain : AnyhowError → List Str
  | .message m => [m]
  | .typed e => [e.display]
  | .context m inner => m :: inner.chain

/-- `err.downcast_ref::<Error>()`: finds a typed error through any number of
context layers (as `anyhow`'s `ContextError` downcast does). -/
def AnyhowError.downcastError : AnyhowError → Option Error
  | .message _ => none
  | .typed e => some e
  | .context _ inner => inner.downcastError

/-- `Vec::join(": ")`. -/
def joinChain : List Str → Str
  | [] => []
  | [s] => s
  | s :: rest => s ++ str ": " ++ joinChain rest

/-- `From<anyhow::Error> for Error`: keep the downcast variant and code with
the joined chain as description, else a `server_error` `ServerError`. -/
def errorFromAnyhow (err : AnyhowError) : Error :=
  let chain := joinChain err.chain
  match err.downcastError with
  | some (.badRequest code _) => .badRequest code chain
  | some (.notFound code _) => .notFound code chain
  | some (.serverError code _) => .serverError code chain
  | some (.badGateway code _) => .badGateway code chain
  | none => .serverError (str "server_error") chain

/-- `ctxs.foldr` builds the nested context layers, outermost context first
(`outer :: middle :: …` around the root cause). -/
def wrapContexts (ctxs : List Str) (e : AnyhowError) : AnyhowError :=
  ctxs.foldr AnyhowError.context e

/-! ## Messaging messages — `wasi-messaging/src/host/types_impl.rs` over the
in-memory backend of `host/default_impl.rs` -/

/-- `HashMap::insert` on the metadata map, modelled on an association list
(replace the existing key or append). -/
def mdInsert (k v : Str) : List (Str × Str) → List (Str × Str)
  | [] => [(k, v)]
  | (k', v') :: rest => if k' = k then (k, v) :: rest else (k', v') :: mdInsert k v rest

/-- `HashMap::remove`. -/
def mdRemove (k : Str) (md : List (Str × Str)) : List (Str × Str) :=
  md.filter fun kv => !(kv.1 == k)

/-- `HashMap::get`. -/
def mdGet (md : List (Str × Str)) (k : Str) : Option Str :=
  (md.find? fun kv => kv.1 = k).map fun kv => kv.2

/-- The `InMemMessage` struct of the default messaging backend (its unread
`reply` field is omitted; every modelled operation clones it unchanged). -/
structure InMemMessage where
  topic : Str
  payload : Bytes
  metadata : Option (List (Str × Str))
  description : Option Str
deriving Repr, DecidableEq

/-- The per-store resource table restricted to message resources: a partial
map from integer handles plus the next handle `push` will allocate. -/
structure Table where
  next : Nat
  entries : Nat → Option InMemMessage

/-- Well-formedness: no entry lives at or beyond `next`. -/
def Table.wf (t : Table) : Prop :=
  ∀ i, t.next ≤ i → t.entries i = none

/-- `ResourceTable::push`: insert under a fresh handle and return it. -/
def Table.push (t : Table) (m : InMemMessage) : Table × Nat :=
  ({ next := t.next + 1,
     entries := fun i => if i = t.next then some m else t.entries i },
   t.next)

/-- `ResourceTable::get`. -/
def Table.get (t : Table) (h : Nat) : Option InMemMessage :=
  t.entries h

/-- `HostMessageWithStore::set_content_type`: look up the message, build an
updated clone (insert `content-type` into the metadata, creating it if
absent), push it under a fresh handle that is not returned, and return
unit. -/
def setContentType (t : Table) (h : Nat) (ct : Str) : Except Str (Table × Unit) :=
  match t.get h with
  | none => .error (str "no such resource")
  | some m =>
    let updated :=
      { m with metadata := some (mdInsert (str "content-type") ct (m.metadata.getD [])) }
    .ok ((t.push updated).1, ())

/-- `HostMessageWithStore::set_data` (the guest-facing name of
`set_payload`). -/
def setData (t : Table) (h : Nat) (d : Bytes) : Except Str (Table × Unit) :=
  match t.get h with
  | none => .error (str "no such resource")
  | some m => .ok ((t.push { m with payload := d }).1, ())

/-- `HostMessageWithStore::add_metadata`. -/
def addMetadata (t : Table) (h : Nat) (k v : Str) : Except Str (Table × Unit) :=
  match t.get h with
  | none => .error (str "no such resource")
  | some m =>
    .ok ((t.push { m with metadata := some (mdInsert k v (m.metadata.getD [])) }).1, ())

/-- `HostMessageWithStore::set_metadata`. -/
def setMetadata (t : Table) (h : Nat) (md : List (Str × Str)) :
    Except Str (Table × Unit) :=
  match t.get h with
  | none => .error (str "no such resource")
  | some m => .ok ((t.push { m with metadata := some md }).1, ())

/-- `HostMessageWithStore::remove_metadata` (metadata absent stays absent). -/
def removeMetadata (t : Table) (h : Nat) (k : Str) : Except Str (Table × Unit) :=
  match t.get h with
  | none => .error (str "no such resource")
  | some m =>
    .ok ((t.push
      { m with metadata := match m.metadata with
          | some md => some (mdRemove k md)
          | none => none }).1, ())

/-- `HostMessageWithStore::topic`: empty topic reads as `none`. -/
def topicOf (t : Table) (h : Nat) : Except Str (Option Str) :=
  match t.get h with
  | none => .error (str "no such resource")
  | some m => .ok (if m.topic.isEmpty then none else some m.topic)

/-- `HostMessageWithStore::data`. -/
def dataOf (t : Table) (h : Nat) : Except Str Bytes :=
  match t.get h with
  | none => .error (str "no such resource")
  | some m => .ok m.payload

/-- `HostMessageWithStore::content_type`. -/
def contentTypeOf (t : Table) (h : Nat) : Except Str (Option Str) :=
  match t.get h with
  | none => .error (str "no such resource")
  | some m =>
    match m.metadata with
    | some md => .ok (mdGet md (str "content-type"))
    | none => .ok none

/-- `HostMessageWithStore::metadata`. -/
def metadataOf (t : Table) (h : Nat) : Except Str (Option (List (Str × Str))) :=
  match t.get h with
  | none => .error (str "no such resource")
  | some m => .ok m.metadata

lemma except_bind_ok {ε α β : Type} (a : α) (f : α → Except ε β) :
    (Except.ok a >>= f) = f a := rfl

/-- The directive-loop body, re-expressed through `classify`. -/
lemma processDirective_cases (c : Control) (raw : Str) :
    processDirective c raw =
      match classify raw with
      | .other => .ok c
      | .noStore =>
        if c.no_cache || c.max_age > 0 then
          .error (str "no-store cannot be combined with other cache directives")
        else .ok { c with no_store := true }
      | .noCache =>
        if c.no_store then .error (str "no-cache cannot be combined with no-store")
        else .ok { c with no_cache := true }
      | .maxAge n =>
        if c.no_store then .error (str "max-age cannot be combined with no-store")
        else .ok { c with max_age := n }
      | .badMaxAge =>
        if c.no_store then .error (str "max-age cannot be combined with no-store")
        else .error (str "max-age directive is malformed") := by
  have eNS : ¬(str "no-store" = ([] : Str)) := by decide
  have eNC1 : ¬(str "no-cache" = ([] : Str)) := by decide
  have eNC2 : ¬(str "no-cache" = str "no-store") := by decide
  simp only [processDirective, classify]
  by_cases h1 : lowerStr (trimStr raw) = []
  · simp [h1]
  · by_cases h2 : lowerStr (trimStr raw) = str "no-store"
    · simp [h2, eNS]
    · by_cases h3 : lowerStr (trimStr raw) = str "no-cache"
      · simp [h3, eNC1, eNC2]
      · cases hsp : stripPrefixStr (str "max-age=") (lowerStr (trimStr raw)) with
        | none => simp [h1, h2, h3, hsp]
        | some v =>
          cases hpu : parseU64 (trimStr v) <;> simp [h1, h2, h3, hsp, hpu]

lemma processDirective_ok_of (c : Control) (raw : Str)
    (h : conflictTok c raw = false) :
    processDirective c raw = .ok (updateTok c raw) := by
  rw [processDirective_cases]
  unfold conflictTok at h
  cases hc : classify raw <;> rw [hc] at h <;> simp at h <;>
    simp [updateTok, hc, h]

lemma processDirective_error_of (c : Control) (raw : Str)
    (h : conflictTok c raw = true) :
    ∃ e, processDirective c raw = .error e := by
  rw [processDirective_cases]
  cases hc : classify raw
  case other =>
    unfold conflictTok at h
    rw [hc] at h
    simp at h
  case noStore =>
    unfold conflictTok at h
    rw [hc] at h
    have h' : c.no_cache = true ∨ 0 < c.max_age := by simpa using h
    refine ⟨str "no-store cannot be combined with other cache directives", ?_⟩
    simp [if_pos h']
  case noCache =>
    unfold conflictTok at h
    rw [hc] at h
    simp at h
    refine ⟨str "no-cache cannot be combined with no-store", ?_⟩
    simp [h]
  case maxAge n =>
    unfold conflictTok at h
    rw [hc] at h
    simp at h
    refine ⟨str "max-age cannot be combined with no-store", ?_⟩
    simp [h]
  case badMaxAge =>
    by_cases hns : c.no_store = true
    · refine ⟨str "max-age cannot be combined with no-store", ?_⟩
      simp [hns]
    · refine ⟨str "max-age directive is malformed", ?_⟩
      simp [hns]

/-- Error characterization of the directive fold, generalized over the
initial state. -/
lemma foldTokens_error_iff (ts : List Str) (c : Control) :
    (∃ e, ts.foldlM processDirective c = .error e) ↔
      ∃ k, ∃ h : k < ts.length,
        conflictTok ((ts.take k).foldl updateTok c) (ts.get ⟨k, h⟩) = true := by
  induction ts generalizing c with
  | nil =>
    simp [List.foldlM, pure, Except.pure]
  | cons t rest ih =>
    rw [List.foldlM_cons]
    by_cases hc : conflictTok c t = true
    · obtain ⟨e, he⟩ := processDirective_error_of c t hc
      rw [he]
      constructor
      · intro _
        exact ⟨0, Nat.succ_pos _, by simpa using hc⟩
      · intro _
        exact ⟨e, rfl⟩
    · rw [processDirective_ok_of c t (by simpa using hc), except_bind_ok]
      rw [ih (updateTok c t)]
      constructor
      · rintro ⟨k, h, hk⟩
        exact ⟨k + 1, Nat.succ_lt_succ h, by simpa using hk⟩
      · rintro ⟨k, h, hk⟩
        cases k with
        | zero => simp at hk; exact absurd hk hc
        | succ k =>
          exact ⟨k, Nat.lt_of_succ_lt_succ h, by simpa using hk⟩

lemma updateTok_no_store (c : Control) (t : Str) :
    (updateTok c t).no_store = (c.no_store || (classify t == DirKind.noStore)) := by
  unfold updateTok
  cases h : classify t <;> simp [h]

lemma updateTok_no_cache (c : Control) (t : Str) :
    (updateTok c t).no_cache = (c.no_cache || (classify t == DirKind.noCache)) := by
  unfold updateTok
  cases h : classify t <;> simp [h]

lemma foldl_updateTok_no_store (pre : List Str) (c : Control) :
    (pre.foldl updateTok c).no_store = (c.no_store || seenNoStore pre) := by
  induction pre generalizing c with
  | nil => simp [seenNoStore]
  | cons t rest ih =>
    rw [List.foldl_cons, ih, updateTok_no_store]
    simp [seenNoStore, Bool.or_assoc]

lemma foldl_updateTok_no_cache (pre : List Str) (c : Control) :
    (pre.foldl updateTok c).no_cache = (c.no_cache || seenNoCache pre) := by
  induction pre generalizing c with
  | nil => simp [seenNoCache]
  | cons t rest ih =>
    rw [List.foldl_cons, ih, updateTok_no_cache]
    simp [seenNoCache, Bool.or_assoc]

lemma foldl_updateTok_max_age (pre : List Str) (c : Control) :
    (pre.foldl updateTok c).max_age = lastMaxAgeFrom c.max_age pre := by
  induction pre generalizing c with
  | nil => simp [lastMaxAgeFrom]
  | cons t rest ih =>
    rw [List.foldl_cons, ih]
    unfold lastMaxAgeFrom
    rw [List.foldl_cons]
    unfold updateTok
    cases h : classify t <;> simp [h]

lemma conflictTok_from_default (pre : List Str) (t : Str) :
    (conflictTok (pre.foldl updateTok {}) t = true) ↔
      (match classify t with
       | .noStore => seenNoCache pre = true ∨ 0 < lastMaxAge pre
       | .noCache => seenNoStore pre = true
       | .maxAge _ => seenNoStore pre = true
       | .badMaxAge => True
       | .other => False) := by
  unfold conflictTok
  cases h : classify t <;>
    simp [h, foldl_updateTok_no_store, foldl_updateTok_no_cache,
      foldl_updateTok_max_age, lastMaxAge]

lemma decodeNat_encodeNat (n : Nat) (rest : Bytes) :
    decodeNat (encodeNat n ++ rest) = some (n, rest) := by
  induction n with
  | zero => rfl
  | succ n ih =>
    have : encodeNat (n + 1) ++ rest = 1 :: (encodeNat n ++ rest) := by
      simp [encodeNat, List.replicate_succ]
    rw [this]
    simp [decodeNat, ih]

lemma decodeStr_encodeStr (s : Str) (rest : Bytes) :
    decodeStr (encodeStr s ++ rest) = some (s, rest) := by
  have hlen : (s.map Char.toNat).length = s.length := by simp
  simp only [decodeStr, encodeStr, List.append_assoc, decodeNat_encodeNat]
  rw [if_pos (by simp only [List.length_append, hlen]; omega)]
  rw [List.take_left' hlen, List.drop_left' hlen, List.map_map]
  simp [Function.comp_def, Char.ofNat_toNat]

lemma decodePairs_encode (hs : List (Str × Str)) (rest : Bytes) :
    decodePairs hs.length ((hs.map encodePair).flatten ++ rest) = some (hs, rest) := by
  induction hs generalizing rest with
  | nil => simp [decodePairs]
  | cons kv tl ih =>
    simp only [List.map_cons, List.flatten_cons, List.length_cons, encodePair,
      List.append_assoc]
    simp [decodePairs, decodeStr_encodeStr, ih]

lemma decodeSerialized_encodeSerialized (s : Serialized) (h : s.status < 65536) :
    decodeSerialized (encodeSerialized s) = some s := by
  simp only [decodeSerialized, encodeSerialized, List.append_assoc,
    decodeNat_encodeNat, decodePairs_encode]
  simp [h]

/-- Every byte below 128 survives the `Char` round trip. -/
lemma charToNat_ofNat_small : ∀ b, b < 128 → (Char.ofNat b).toNat = b := by decide

lemma visible_is_valid_value_byte : ∀ b, isVisibleAsciiByte b = true →
    isValidHeaderValueByte b = true := by
  intro b h
  simp only [isVisibleAsciiByte, Bool.or_eq_true, Bool.and_eq_true, decide_eq_true_eq] at h
  simp only [isValidHeaderValueByte, Bool.or_eq_true, Bool.and_eq_true, decide_eq_true_eq]
  omega

lemma visible_byte_lt_128 : ∀ b, isVisibleAsciiByte b = true → b < 128 := by
  intro b h
  simp only [isVisibleAsciiByte, Bool.or_eq_true, Bool.and_eq_true, decide_eq_true_eq] at h
  omega

/-- Encoding the chars obtained from visible-ASCII bytes gives the bytes
back. -/
lemma utf8EncodeStr_ofVisible (v : Bytes) (h : v.all isVisibleAsciiByte = true) :
    utf8EncodeStr (v.map Char.ofNat) = v := by
  induction v with
  | nil => rfl
  | cons b tl ih =>
    simp only [List.all_cons, Bool.and_eq_true] at h
    have hb : b < 128 := visible_byte_lt_128 b h.1
    simp only [utf8EncodeStr, List.map_cons, List.flatten_cons]
    rw [show utf8EncodeChar (Char.ofNat b) = [b] by
      unfold utf8EncodeChar
      rw [charToNat_ofNat_small b hb]
      simp [hb]]
    have := ih h.2
    simp only [utf8EncodeStr] at this
    simpa [List.map_map] using this

lemma headerNameOfStr_valid (k : Str) (h : validHeaderName k = true) :
    headerNameOfStr k = some k := by
  simp only [validHeaderName, Bool.and_eq_true, decide_eq_true_eq] at h
  simp [headerNameOfStr, h.1.1, h.1.2, h.2]

/-- Rebuilding a header value from its serialized string yields exactly the
code's lossy transform of the original bytes. -/
lemma headerValue_roundtrip (v : Bytes) :
    headerValueOfStr ((headerValueToStr v).getD []) = some (codeHeaderLoss v) := by
  by_cases h : v.all isVisibleAsciiByte = true
  · simp only [headerValueToStr, h, if_true, Option.getD_some, codeHeaderLoss, if_pos h]
    simp only [headerValueOfStr, utf8EncodeStr_ofVisible v h]
    rw [if_pos]
    exact List.all_eq_true.mpr
      (fun b hb => visible_is_valid_value_byte b (List.all_eq_true.mp h b hb))
  · simp only [headerValueToStr, h, if_false, Option.getD_none, codeHeaderLoss, if_neg h]
    rfl

lemma buildHeaders_roundtrip (hs : List (Str × Bytes))
    (hn : ∀ kv ∈ hs, validHeaderName kv.1 = true) :
    buildHeaders (hs.map fun kv => (kv.1, (headerValueToStr kv.2).getD [])) =
      some (hs.map fun kv => (kv.1, codeHeaderLoss kv.2)) := by
  induction hs with
  | nil => rfl
  | cons kv tl ih =>
    simp only [List.map_cons, buildHeaders]
    rw [headerNameOfStr_valid kv.1 (hn kv (List.mem_cons_self kv tl)),
      headerValue_roundtrip kv.2, ih (fun x hx => hn x (List.mem_cons_of_mem kv hx))]

/-- The `Forwarded` fold keeps, for each of the two builder slots, the last
matching item. -/
lemma foldl_forwardedFoldStep (ts : List Str) (sa : Option Str × Option Str) :
    ts.foldl forwardedFoldStep sa =
      (lastOr (ts.filterMap fwdHostItem) sa.1,
       lastOr (ts.filterMap fwdProtoItem) sa.2) := by
  induction ts generalizing sa with
  | nil => rfl
  | cons t rest ih =>
    rw [List.foldl_cons, ih]
    unfold forwardedFoldStep fwdHostItem fwdProtoItem
    cases hh : stripPrefixStr (str "host=") (trimStr t) with
    | some host => simp [List.filterMap_cons, hh, lastOr]
    | none =>
      cases hp : stripPrefixStr (str "proto=") (trimStr t) with
      | some proto => simp [List.filterMap_cons, hh, hp, lastOr]
      | none => simp [List.filterMap_cons, hh, hp]

/-- A fold of `HeaderMap::remove` over a list of names filters out exactly
those names. -/
lemma foldl_removeHeader (names : List Str) (hs : List (Str × Str)) :
    names.foldl removeHeader hs = hs.filter fun kv => !(names.contains kv.1) := by
  induction names generalizing hs with
  | nil => simp
  | cons n rest ih =>
    rw [List.foldl_cons, ih]
    unfold removeHeader
    rw [List.filter_filter]
    congr 1
    funext kv
    simp only [List.contains_cons, Bool.not_or]
    rw [Bool.and_comm]

lemma chain_wrapContexts (ctxs : List Str) (e : AnyhowError) :
    (wrapContexts ctxs e).chain = ctxs ++ e.chain := by
  induction ctxs with
  | nil => rfl
  | cons c rest ih =>
    show (AnyhowError.context c (wrapContexts rest e)).chain = _
    rw [AnyhowError.chain, ih]
    rfl

lemma downcast_wrapContexts (ctxs : List Str) (e : AnyhowError) :
    (wrapContexts ctxs e).downcastError = e.downcastError := by
  induction ctxs with
  | nil => rfl
  | cons c rest ih =>
    show (AnyhowError.context c (wrapContexts rest e)).downcastError = _
    rw [AnyhowError.downcastError, ih]

lemma Table.push_get_ne (t : Table) (m : InMemMessage) (h : Nat)
    (hne : h ≠ t.next) : (t.push m).1.get h = t.get h := by
  simp [Table.push, Table.get, hne]

lemma hostValues_append (a b : List (Str × Str)) :
    hostValues (a ++ b) = hostValues a ++ hostValues b := by
  unfold hostValues
  rw [List.filter_append, List.map_append]

lemma hostValues_nonHost (hs : List (Str × Str)) :
    hostValues (hs.filter fun kv => !(kv.1 == str "host")) = [] := by
  unfold hostValues
  rw [List.filter_filter]
  have h : ∀ kv : Str × Str,
      ((kv.1 == str "host") && !(kv.1 == str "host")) = false := by
    intro kv
    cases kv.1 == str "host" <;> rfl
  simp [h]

lemma hostValues_hostMap (l : List Str) :
    hostValues (l.map fun v => (str "host", v)) = l := by
  unfold hostValues
  rw [List.filter_eq_self.mpr (by
    intro a ha
    obtain ⟨v, _, rfl⟩ := List.mem_map.mp ha
    simp)]
  rw [List.map_map]
  simp [Function.comp_def]

example : parseDirectives (str "no-store, max-age=0") =
    .error (str "max-age cannot be combined with no-store") := by decide
example : parseDirectives (str "max-age=0, no-store") =
    .ok { no_store := true } := by decide
example : parseDirectives (str "max-age=+5") = .ok { max_age := 5 } := by decide
example : parseU64 (str "+") = none := by decide
example : parseU64 (str "-5") = none := by decide
example : controlTryFrom (some (str "no-cache")) none = .ok { no_cache := true } := by decide
example : controlTryFrom (some (str "max-age=120")) (some (str "W/\"e1\"")) =
    .error (str "weak etag values in If-None-Match header not supported") := by decide
example : controlTryFrom (some (str "max-age=120")) (some (str "\"e1\"")) =
    .ok { max_age := 120, etag := str "\"e1\"" } := by decide

/-! ## Claim theorems for the `Cache-Control` parser -/

/-- C1: the claim says any final state other than `no-store` (in particular a
`no-cache` state) must be rejected unless `If-None-Match` is present,
non-empty, single-valued and strong.  The code only performs that check when
*neither* `no-store` nor `no-cache` was parsed, so `Cache-Control: no-cache`
with a missing, weak, or multi-valued `If-None-Match` parses successfully —
the exact inputs the unit tests in `cache.rs` expect to be rejected. -/
theorem noCacheSkipsEtagValidation :
    controlTryFrom (some (str "no-cache")) none = .ok { no_cache := true } ∧
    controlTryFrom (some (str "no-cache")) (some (str "W/\"weak-etag\"")) =
      .ok { no_cache := true } ∧
    controlTryFrom (some (str "no-cache")) (some (str "\"etag1\", \"etag2\"")) =
      .ok { no_cache := true } := by
  decide

/-- C2 counterexample: the claim says `no-store` combined with `max-age=0` is
accepted irrespective of directive order, yet the parser rejects
`no-store, max-age=0` while accepting `max-age=0, no-store`. -/
theorem noStoreThenMaxAgeZeroRejected :
    parseDirectives (str "no-store, max-age=0") =
      .error (str "max-age cannot be combined with no-store") ∧
    parseDirectives (str "max-age=0, no-store") = .ok { no_store := true } := by
  decide

/-- C2 amended: the directive loop errors exactly when some token conflicts
with the state accumulated from the tokens before it: `no-store` conflicts
when `no-cache` appeared earlier or the last preceding `max-age` value is
positive; `no-cache` and any `max-age=…` token conflict when `no-store`
appeared earlier (so `no-store, max-age=0` is rejected while
`max-age=0, no-store` is accepted — order matters); a malformed `max-age=`
value always errors; unrecognized or empty tokens never do. -/
theorem parseDirectivesErrorCharacterization (s : Str) :
    (∃ e, parseDirectives s = .error e) ↔
      ∃ k, ∃ h : k < (splitOnChar ',' s).length, rejectsAt (splitOnChar ',' s) k h := by
  unfold parseDirectives
  rw [foldTokens_error_iff]
  refine exists_congr fun k => exists_congr fun h => ?_
  rw [conflictTok_from_default]
  unfold rejectsAt
  exact Iff.rfl

/-- C3 counterexample: the claim says only header values that are *not valid
UTF-8* are replaced by the empty string, but the code goes through
`HeaderValue::to_str`, which rejects every non-visible-ASCII byte: the value
`é` (bytes `[195, 169]`, valid UTF-8) comes back from the round trip as the
empty value, not preserved as the claim's transform demands. -/
theorem utf8HeaderValueNotPreserved :
    validUtf8 [195, 169] = true ∧
    deserializeResponse (serializeResponse ⟨200, [(str "x-test", [195, 169])], []⟩) =
      some ⟨200, [(str "x-test", [])], []⟩ ∧
    deserializeResponse (serializeResponse ⟨200, [(str "x-test", [195, 169])], []⟩) ≠
      some ⟨200, [(str "x-test", claimHeaderLoss [195, 169])], []⟩ := by
  decide

/-- C3 amended: deserializing the serialized flat record of any response with
a valid status (100–999) and well-formed lowercase header names reconstructs
the status, the body, and the same ordered header sequence, where any header
value containing a byte that is not visible ASCII (0x20–0x7E) or tab is
replaced by the empty value at serialization time (a strictly larger class
than the claim's "not valid UTF-8"). -/
theorem serializeDeserializeRoundtrip (r : HttpResponse)
    (hst : 100 ≤ r.status ∧ r.status < 1000)
    (hn : ∀ kv ∈ r.headers, validHeaderName kv.1 = true) :
    deserializeResponse (serializeResponse r) =
      some { status := r.status
             headers := r.headers.map fun kv => (kv.1, codeHeaderLoss kv.2)
             body := r.body } := by
  unfold serializeResponse deserializeResponse
  rw [decodeSerialized_encodeSerialized _ (by simp only [serializedOfResponse]; omega)]
  simp only [responseOfSerialized, serializedOfResponse, statusOfNat]
  rw [buildHeaders_roundtrip r.headers hn]
  simp [hst.1, hst.2]

/-- Witness for the round-trip theorem at a concrete response. -/
theorem serializeDeserializeRoundtrip_witness :
    (100 ≤ 201 ∧ 201 < 1000) ∧
    deserializeResponse
        (serializeResponse ⟨201, [(str "etag", [34, 101, 49, 34])], [123, 125]⟩) =
      some ⟨201, [(str "etag", [34, 101, 49, 34])], [123, 125]⟩ := by
  refine ⟨by omega, ?_⟩
  exact serializeDeserializeRoundtrip
    ⟨201, [(str "etag", [34, 101, 49, 34])], [123, 125]⟩ (by exact ⟨by decide, by decide⟩)
    (by decide)

/-- C4 counterexample: a stored record that fails to decode makes
`Cache::get` return an *error* (which `handle` propagates with `?` before any
network request), not the recoverable cache miss the claim asserts. -/
theorem corruptRecordIsErrorNotMiss :
    cacheGet ⟨false, false, 60, str "e1"⟩ (fun _ => some [2]) =
      .error (str "deserializing cached response") ∧
    cacheGet ⟨false, false, 60, str "e1"⟩ (fun _ => some [2]) ≠ .ok none := by
  decide

/-- C4 amended: whenever the cache is consulted (caching enabled, non-empty
ETag) and the bytes stored under the ETag fail to decode as the serialized
record, `Cache::get` surfaces the failure as an error, not as a miss. -/
theorem cacheGetDecodeFailureIsError (ctrl : Control) (store : Str → Option Bytes)
    (d : Bytes) (h1 : ctrl.no_cache = false) (h2 : ctrl.no_store = false)
    (h3 : ctrl.etag ≠ []) (h4 : store ctrl.etag = some d)
    (h5 : deserializeResponse d = none) :
    cacheGet ctrl store = .error (str "deserializing cached response") := by
  have he : ctrl.etag.isEmpty = false := by
    cases h : ctrl.etag with
    | nil => exact absurd h h3
    | cons a l => rfl
  unfold cacheGet
  simp [h1, h2, he, h4, h5]

/-- Witness for the decode-failure theorem at a concrete control and store. -/
theorem cacheGetDecodeFailureIsError_witness :
    deserializeResponse [3] = none ∧
    cacheGet ⟨false, false, 60, str "e1"⟩ (fun _ => some [3]) =
      .error (str "deserializing cached response") :=
  ⟨by decide,
    cacheGetDecodeFailureIsError ⟨false, false, 60, str "e1"⟩ (fun _ => some [3]) [3]
      rfl rfl (by decide) rfl (by decide)⟩

/-- C5 counterexample: a request with neither a `Forwarded` nor a `Host`
header makes `fix_request` fail, and `serve` turns every handler failure into
the fixed `internal_error()` page — status 500, not the 400 the claim
asserts. -/
theorem missingHostRejectedWith500Not400 :
    (serveRespond ⟨[], none⟩ fun _ => ⟨200, none⟩) = internalError ∧
    (serveRespond ⟨[], none⟩ fun _ => ⟨200, none⟩).status = 500 ∧
    ((serveRespond ⟨[], none⟩ fun _ => ⟨200, none⟩).status = 400 → False) := by
  decide

/-- C5 amended: with a `Forwarded` header the authority is the last `host=`
item and the scheme the last `proto=` item (assembled under the
`Uri::from_parts` rules); without one, the scheme is `http` and the authority
the `Host` header; a request with neither is answered with the fixed
internal-error page (status 500). -/
theorem inboundUriRewrite (req : InboundRequest) (guest : UriParts → HostResponse) :
    (∀ fwd, headersGet req.headers (str "forwarded") = some fwd →
      fixRequest req =
        buildUri (lastOr ((splitOnChar ';' fwd).filterMap fwdProtoItem) none)
          (lastOr ((splitOnChar ';' fwd).filterMap fwdHostItem) none)
          (req.path_and_query.getD (str "/"))) ∧
    (headersGet req.headers (str "forwarded") = none →
      ∀ host, headersGet req.headers (str "host") = some host →
        fixRequest req =
          .ok ⟨some (str "http"), some host, req.path_and_query.getD (str "/")⟩) ∧
    (headersGet req.headers (str "forwarded") = none →
      headersGet req.headers (str "host") = none →
      serveRespond req guest = internalError) := by
  refine ⟨?_, ?_, ?_⟩
  · intro fwd hf
    unfold fixRequest parseForwarded
    simp only [hf, foldl_forwardedFoldStep]
  · intro hf host hh
    unfold fixRequest
    rw [hf, hh]
    rfl
  · intro hf hh
    unfold serveRespond fixRequest
    rw [hf, hh]

/-- Witness for the URI rewrite theorem at concrete requests covering all
three cases. -/
theorem inboundUriRewrite_witness :
    fixRequest ⟨[(str "forwarded", str "host=api.example;proto=https")], none⟩ =
      .ok ⟨some (str "https"), some (str "api.example"), str "/"⟩ ∧
    fixRequest ⟨[(str "host", str "x.example")], some (str "/a?b=c")⟩ =
      .ok ⟨some (str "http"), some (str "x.example"), str "/a?b=c"⟩ ∧
    serveRespond ⟨[], none⟩ (fun _ => ⟨200, none⟩) = internalError := by
  refine ⟨?_, by decide, ?_⟩
  · rw [(inboundUriRewrite ⟨[(str "forwarded", str "host=api.example;proto=https")], none⟩
      (fun _ => ⟨200, none⟩)).1 (str "host=api.example;proto=https") rfl]
    decide
  · exact (inboundUriRewrite ⟨[], none⟩ (fun _ => ⟨200, none⟩)).2.2 rfl rfl

/-- C6: after the scrub loop the response contains none of the nine forbidden
headers, and every other header survives unchanged and in order (the result
is exactly the original list with the forbidden names filtered out). -/
theorem forbiddenResponseHeadersStripped (hs : List (Str × Str)) :
    stripForbidden hs = (hs.filter fun kv => !(forbiddenHeaders.contains kv.1)) ∧
    ∀ kv ∈ stripForbidden hs, ¬(forbiddenHeaders.contains kv.1 = true) := by
  have h := foldl_removeHeader forbiddenHeaders hs
  refine ⟨h, ?_⟩
  intro kv hkv hmem
  rw [stripForbidden, h] at hkv
  have := (List.mem_filter.mp hkv).2
  rw [hmem] at this
  exact Bool.noConfusion this

/-- C7 counterexample: with three `Host` values the dedupe block
(`values.into_iter().skip(1)`) leaves *two* `Host` headers, not the exactly
one the claim asserts for any number of duplicates. -/
theorem threeHostValuesRemainTwo :
    hostValues (dedupeHostHeaders
        [(str "host", str "a"), (str "host", str "b"), (str "host", str "c")]) =
      [str "b", str "c"] ∧
    (hostValues (dedupeHostHeaders
        [(str "host", str "a"), (str "host", str "b"), (str "host", str "c")])).length ≠ 1 := by
  decide

/-- C7 amended: the dedupe block drops exactly the *first* `Host` value when
more than one is present (so only for exactly two original values does
exactly one — the last — remain). -/
theorem dedupeHostDropsFirstValue (hs : List (Str × Str)) :
    hostValues (dedupeHostHeaders hs) =
      if (hostValues hs).length ≤ 1 then hostValues hs
      else (hostValues hs).drop 1 := by
  unfold dedupeHostHeaders
  by_cases h : (hostValues hs).length > 1
  · rw [if_pos h, if_neg (by omega)]
    rw [hostValues_append, hostValues_nonHost, hostValues_hostMap, List.nil_append]
  · rw [if_neg h, if_pos (by omega)]

/-- C8: the status mapping of the typed errors and their HTTP projection:
status 400/404/502/500 per variant, and the response built from an error
carries that status and the error's formatted display string as body. -/
theorem errorStatusMapping (code description : Str) :
    (Error.badRequest code description).status = 400 ∧
    (Error.notFound code description).status = 404 ∧
    (Error.badGateway code description).status = 502 ∧
    (Error.serverError code description).status = 500 ∧
    (∀ e : Error, (HttpError.ofError e).intoResponse =
      (e.status, str "code: " ++ e.code ++ str ", description: " ++ e.description)) := by
  exact ⟨rfl, rfl, rfl, rfl, fun e => rfl⟩

/-- C9: wrapping a typed error in any stack of context layers keeps the
variant and the code, and the resulting description is the colon-joined chain
— outermost context first, the original error's display last; wrapping a
non-typed error yields a `ServerError` with code `server_error` and the same
joined description. -/
theorem errorContextChaining (ctxs : List Str) (e : Error) (m : Str) :
    (errorFromAnyhow (wrapContexts ctxs (.typed e))).tagOf = e.tagOf ∧
    (errorFromAnyhow (wrapContexts ctxs (.typed e))).code = e.code ∧
    (errorFromAnyhow (wrapContexts ctxs (.typed e))).description =
      joinChain (ctxs ++ [e.display]) ∧
    errorFromAnyhow (wrapContexts ctxs (.message m)) =
      .serverError (str "server_error") (joinChain (ctxs ++ [m])) := by
  unfold errorFromAnyhow
  rw [chain_wrapContexts, downcast_wrapContexts, chain_wrapContexts,
    downcast_wrapContexts]
  simp only [AnyhowError.chain, AnyhowError.downcastError]
  cases e <;>
    simp [Error.tagOf, Error.code, Error.description, Error.display]

/-- C10: each of the five mutating message calls looks up the handle,
pushes an updated clone under a fresh handle (absent before the call and
different from the original), and returns unit; afterwards the original
handle still holds the untouched message, so topic, data, content-type and
metadata read through it are unchanged. -/
theorem messageMutationNotVisibleThroughOldHandle
    (t : Table) (h : Nat) (m : InMemMessage) (ct : Str) (d : Bytes) (k v : Str)
    (md : List (Str × Str)) (hwf : t.wf) (hm : t.get h = some m) :
    (∃ t', setContentType t h ct = .ok (t', ()) ∧ t'.get h = some m ∧
      topicOf t' h = topicOf t h ∧ dataOf t' h = dataOf t h ∧
      contentTypeOf t' h = contentTypeOf t h ∧ metadataOf t' h = metadataOf t h) ∧
    (∃ t', setData t h d = .ok (t', ()) ∧ t'.get h = some m) ∧
    (∃ t', addMetadata t h k v = .ok (t', ()) ∧ t'.get h = some m) ∧
    (∃ t', setMetadata t h md = .ok (t', ()) ∧ t'.get h = some m) ∧
    (∃ t', removeMetadata t h k = .ok (t', ()) ∧ t'.get h = some m) ∧
    t.get t.next = none ∧ h ≠ t.next := by
  have hnone : t.get t.next = none := hwf t.next (Nat.le_refl _)
  have hne : h ≠ t.next := by
    intro he
    rw [he] at hm
    rw [hm] at hnone
    exact Option.noConfusion hnone
  have hget : ∀ m' : InMemMessage, (t.push m').1.get h = some m := by
    intro m'
    rw [Table.push_get_ne t m' h hne, hm]
  refine
    ⟨⟨(t.push { m with
          metadata := some (mdInsert (str "content-type") ct (m.metadata.getD [])) }).1,
        ?_, hget _, ?_, ?_, ?_, ?_⟩,
      ⟨(t.push { m with payload := d }).1, ?_, hget _⟩,
      ⟨(t.push { m with metadata := some (mdInsert k v (m.metadata.getD [])) }).1, ?_,
        hget _⟩,
      ⟨(t.push { m with metadata := some md }).1, ?_, hget _⟩,
      ⟨(t.push { m with
          metadata := match m.metadata with
            | some md' => some (mdRemove k md')
            | none => none }).1, ?_, hget _⟩,
      hnone, hne⟩
  · simp [setContentType, hm]
  · unfold topicOf
    rw [hget _, hm]
  · unfold dataOf
    rw [hget _, hm]
  · unfold contentTypeOf
    rw [hget _, hm]
  · unfold metadataOf
    rw [hget _, hm]
  · simp [setData, hm]
  · simp [addMetadata, hm]
  · simp [setMetadata, hm]
  · simp [removeMetadata, hm]

/-- Witness for the message mutation theorem at a concrete one-entry table. -/
theorem messageMutation_witness :
    Table.wf ⟨1, fun i => if i = 0 then some ⟨str "news", [1, 2], none, none⟩ else none⟩ ∧
    Table.get ⟨1, fun i => if i = 0 then some ⟨str "news", [1, 2], none, none⟩ else none⟩ 0 =
      some ⟨str "news", [1, 2], none, none⟩ ∧
    (Table.get ⟨1, fun i => if i = 0 then some ⟨str "news", [1, 2], none, none⟩ else none⟩ 1 =
        none ∧
      (0 : Nat) ≠ 1) := by
  have hwf :
      Table.wf ⟨1, fun i => if i = 0 then some ⟨str "news", [1, 2], none, none⟩ else none⟩ := by
    intro i hi
    have hi' : 1 ≤ i := hi
    show (if i = 0 then some (⟨str "news", [1, 2], none, none⟩ : InMemMessage) else none) = none
    rw [if_neg (by omega)]
  refine ⟨hwf, rfl, ?_⟩
  exact (messageMutationNotVisibleThroughOldHandle _ 0 _ (str "ct") [9] (str "k") (str "v")
    [] hwf rfl).2.2.2.2.2

end Omnia
